import Mathlib

/-!
# Verification of the gmgnscraper deduplication cache and notifier pipeline

Shallow embedding of src/main.py (class GmgnScraper).  Timestamps are
modelled as integers (seconds since epoch); the Python code uses float
seconds, but every comparison in the source is an order comparison, so the
integer model is faithful.  The in-memory Python dict self.sent_tokens is
modelled as an association list with dict update semantics (updating an
existing key replaces its value in place; a new key is appended), which
matches insertion-ordered Python dicts.  External effects (the HTTP fetch,
the Telegram sink, file writes) are modelled by explicit parameters and
result values.
-/

namespace Gmgn

/-- The in-memory dedup mapping self.sent_tokens: token key to timestamp
of the last notification, in dict insertion order. -/
abbrev Store := List (String × Int)

/-- First-occurrence lookup, the model of Python dict indexing and the
membership test.  A store produced by the code never holds a duplicate
key, so first occurrence is the dict value. -/
def Store.lookup : Store → String → Option Int
  | [], _ => none
  | (k', v) :: rest, k => if k' = k then some v else Store.lookup rest k

/-- Dict assignment d[k] = v: replace the value of an existing key in
place, otherwise append the new binding at the end. -/
def Store.insert : Store → String → Int → Store
  | [], k, v => [(k, v)]
  | (k', v') :: rest, k, v =>
      if k' = k then (k, v) :: rest else (k', v') :: Store.insert rest k v

/-- The expiry horizon: 24 * 3600 seconds, the constant appearing in
load_cache and was_token_sent_recently (src/main.py lines 45 and 68). -/
def expiryHorizon : Int := 24 * 3600

/-- State of the durable cache file sent_tokens.json. -/
inductive DiskFile where
  | missing
  | corrupt
  | stored (s : Store)
  deriving Repr, DecidableEq

/-- In-memory mapping together with the durable cache file. -/
structure CacheState where
  mem : Store
  disk : DiskFile
  deriving Repr, DecidableEq

/-- load_cache (src/main.py lines 33-53): a missing file yields an empty
store; a read or parse failure is caught and yields an empty store; a
loaded store is pruned, keeping exactly the entries with
current_time - timestamp < 24 * 3600 (the dict comprehension at
lines 42-46, which preserves order). -/
def load_cache (disk : DiskFile) (current_time : Int) : Store :=
  match disk with
  | .missing => []
  | .corrupt => []
  | .stored s => s.filter (fun p => current_time - p.2 < expiryHorizon)

/-- save_cache (src/main.py lines 55-62): writes the full in-memory
mapping to the cache file; every exception is caught and only logged, so
a failed write (persistOk = false) leaves the file in its previous state
and no error propagates. -/
def save_cache (mem : Store) (disk : DiskFile) (persistOk : Bool) : DiskFile :=
  if persistOk then .stored mem else disk

/-- was_token_sent_recently (src/main.py lines 64-69): true iff the key
is present and current_time - timestamp < 24 * 3600.  A pure read: it
returns a Bool and touches nothing. -/
def was_token_sent_recently (sent_tokens : Store) (current_time : Int)
    (token_address : String) : Bool :=
  match Store.lookup sent_tokens token_address with
  | some ts => current_time - ts < expiryHorizon
  | none => false

/-- mark_token_as_sent (src/main.py lines 71-73): sets the key to the
current time in memory, then calls save_cache. -/
def mark_token_as_sent (st : CacheState) (now : Int) (token_address : String)
    (persistOk : Bool) : CacheState :=
  let mem := Store.insert st.mem token_address now
  { mem := mem, disk := save_cache mem st.disk persistOk }

/-- The dedup key used both by scrape (line 154) and by send_to_telegram
(line 76): the dexscreener URL built from the token address. -/
def dexKey (address : String) : String :=
  "https://dexscreener.com/solana/" ++ address

/-- One record of the ranking feed; the fields the pipeline consumes. -/
structure Coin where
  address : String
  symbol : String
  usd_market_cap : Int
  deriving Repr, DecidableEq

/-- Outcome of the external-source fetch in scrape (src/main.py 117-171):
transportError models an exception from curl_requests.get (re-raised by
the outer handler at line 171); badStatus the non-200 branch at line 165;
parseError the ValueError branch at line 160 (response body is not JSON);
badShape a parsed body missing data and rank, whose KeyError reaches the
outer handler and is re-raised; ok carries json_response data rank. -/
inductive FetchResult where
  | transportError
  | badStatus
  | parseError
  | badShape
  | ok (rank : List Coin)
  deriving Repr, DecidableEq

/-- True exactly on the fetch-level failure outcomes. -/
def fetchFailed : FetchResult → Bool
  | .ok _ => false
  | _ => true

/-- send_to_telegram (src/main.py lines 75-102): builds the dexscreener
key from the coin address, attempts the sendMessage call (outcome given
by the deliverOk oracle); on success marks the key as sent, a
RequestException is caught and logged, leaving the store untouched.
Returns the new cache state and whether the message was delivered. -/
def send_to_telegram (st : CacheState) (now : Int) (deliverOk : String → Bool)
    (persistOk : String → Bool) (coin : Coin) : CacheState × Bool :=
  let token_address := dexKey coin.address
  if deliverOk token_address then
    (mark_token_as_sent st now token_address (persistOk token_address), true)
  else
    (st, false)

/-- Result of the per-candidate loop: final cache state, the dedup keys
for which a delivery was attempted (in call order on the sink), and the
subset that was delivered. -/
structure LoopResult where
  state : CacheState
  attempts : List String
  delivered : List String
  deriving Repr, DecidableEq

/-- The for-loop over coins_data in scrape (src/main.py lines 153-158):
for each coin, in order, build the dexscreener key; if the key was not
sent recently, call send_to_telegram, otherwise skip. -/
def processCoins (now : Int) (deliverOk : String → Bool) (persistOk : String → Bool) :
    List Coin → CacheState → LoopResult
  | [], st => ⟨st, [], []⟩
  | coin :: rest, st =>
      let token_address := dexKey coin.address
      if was_token_sent_recently st.mem now token_address then
        processCoins now deliverOk persistOk rest st
      else
        let step := send_to_telegram st now deliverOk persistOk coin
        let r := processCoins now deliverOk persistOk rest step.1
        if step.2 then
          ⟨r.state, token_address :: r.attempts, token_address :: r.delivered⟩
        else
          ⟨r.state, token_address :: r.attempts, r.delivered⟩

/-- Outcome of one scrape() cycle. considered is coins_data, the slice
of the feed the loop iterates over; raisedError records whether scrape
re-raised an exception (line 171); cleanupRan records whether
cleanup_temp_files was invoked during the cycle. -/
structure ScrapeResult where
  state : CacheState
  considered : List Coin
  attempts : List String
  delivered : List String
  raisedError : Bool
  cleanupRan : Bool
  deriving Repr, DecidableEq

/-- scrape (src/main.py lines 117-171).  A transport exception is logged
and re-raised (line 171); a non-200 status and a JSON parse failure are
logged and scrape returns normally; a parsed body without the data rank
keys raises KeyError, which the outer handler re-raises.  On success the
loop runs over json_response data rank sliced to the first 4 records
(line 151).  The source defines cleanup_temp_files (lines 104-115) but
scrape never calls it, so cleanupRan is false on every path. -/
def scrape (st : CacheState) (now : Int) (fetch : FetchResult)
    (deliverOk : String → Bool) (persistOk : String → Bool) : ScrapeResult :=
  match fetch with
  | .transportError => ⟨st, [], [], [], true, false⟩
  | .badStatus => ⟨st, [], [], [], false, false⟩
  | .parseError => ⟨st, [], [], [], false, false⟩
  | .badShape => ⟨st, [], [], [], true, false⟩
  | .ok rank =>
      let coins_data := rank.take 4
      let r := processCoins now deliverOk persistOk coins_data st
      ⟨r.state, coins_data, r.attempts, r.delivered, false, false⟩

/-- The __main__ block (src/main.py lines 174-179): scrape is wrapped in
a try block whose except clause catches every Exception, logs it and
falls through, so the interpreter always exits normally and the process
exit code is 0 on every path. -/
def gmgnMain (st : CacheState) (now : Int) (fetch : FetchResult)
    (deliverOk : String → Bool) (persistOk : String → Bool) : Nat :=
  let r := scrape st now fetch deliverOk persistOk
  if r.raisedError then
    0
  else
    0

/-! ## Lemmas about the association-list store -/

theorem lookup_insert_self (s : Store) (k : String) (v : Int) :
    Store.lookup (Store.insert s k v) k = some v := by
  induction s with
  | nil => simp [Store.insert, Store.lookup]
  | cons p rest ih =>
      by_cases h : p.1 = k
      · simp [Store.insert, h, Store.lookup]
      · simp [Store.insert, h, Store.lookup, ih]

theorem lookup_insert (s : Store) (k k' : String) (v : Int) :
    Store.lookup (Store.insert s k v) k' =
      if k' = k then some v else Store.lookup s k' := by
  induction s with
  | nil =>
      by_cases h : k' = k
      · subst h; simp [Store.insert, Store.lookup]
      · simp [Store.insert, Store.lookup, h, Ne.symm h]
  | cons p rest ih =>
      obtain ⟨pk, pv⟩ := p
      by_cases hp : pk = k
      · subst hp
        by_cases h : k' = pk
        · subst h; simp [Store.insert, Store.lookup]
        · simp [Store.insert, Store.lookup, h, Ne.symm h]
      · by_cases hpk : pk = k'
        · have hk : ¬k' = k := fun he => hp (hpk.trans he)
          simp [Store.insert, Store.lookup, hp, hpk, hk]
        · simp [Store.insert, Store.lookup, hp, hpk, ih]

theorem lookup_insert_ne (s : Store) (k k' : String) (v : Int) (h : k' ≠ k) :
    Store.lookup (Store.insert s k v) k' = Store.lookup s k' := by
  simp [lookup_insert, h]

theorem lookup_mem (s : Store) (k : String) (v : Int)
    (h : Store.lookup s k = some v) : (k, v) ∈ s := by
  induction s with
  | nil => simp [Store.lookup] at h
  | cons p rest ih =>
      obtain ⟨pk, pv⟩ := p
      by_cases hp : pk = k
      · simp only [Store.lookup, if_pos hp] at h
        injection h with hv
        subst hp
        subst hv
        exact List.mem_cons_self _ _
      · simp only [Store.lookup, if_neg hp] at h
        exact List.mem_cons_of_mem _ (ih h)

theorem mem_lookup_of_nodup (s : Store) (k : String) (v : Int)
    (hnd : (s.map Prod.fst).Nodup) (h : (k, v) ∈ s) :
    Store.lookup s k = some v := by
  induction s with
  | nil => simp at h
  | cons p rest ih =>
      simp only [List.map_cons, List.nodup_cons] at hnd
      rcases List.mem_cons.mp h with h1 | h1
      · subst h1
        simp [Store.lookup]
      · have hne : p.1 ≠ k := by
          intro he
          exact hnd.1 (he ▸ (List.mem_map.mpr ⟨(k, v), h1, rfl⟩))
        simp [Store.lookup, hne, ih hnd.2 h1]

/-! ## Lemmas about the dedup operations -/

theorem was_recent_of_lookup (mem : Store) (q ts : Int) (k : String)
    (h : Store.lookup mem k = some ts) :
    was_token_sent_recently mem q k = decide (q - ts < expiryHorizon) := by
  simp [was_token_sent_recently, h]

theorem mark_mem_eq (st : CacheState) (now : Int) (k : String) (pOk : Bool) :
    (mark_token_as_sent st now k pOk).mem = Store.insert st.mem k now := rfl

theorem was_recent_insert_ne (mem : Store) (now v : Int) (k k' : String)
    (h : k' ≠ k) :
    was_token_sent_recently (Store.insert mem k v) now k' =
      was_token_sent_recently mem now k' := by
  simp [was_token_sent_recently, lookup_insert_ne mem k k' v h]

/-! ## Lemmas about the candidate loop -/

theorem processCoins_cons_recent (now : Int) (dOk pOk : String → Bool)
    (coin : Coin) (rest : List Coin) (st : CacheState)
    (h : was_token_sent_recently st.mem now (dexKey coin.address) = true) :
    processCoins now dOk pOk (coin :: rest) st =
      processCoins now dOk pOk rest st := by
  simp [processCoins, h]

theorem processCoins_cons_deliver (now : Int) (dOk pOk : String → Bool)
    (coin : Coin) (rest : List Coin) (st : CacheState)
    (hrec : was_token_sent_recently st.mem now (dexKey coin.address) = false)
    (hdel : dOk (dexKey coin.address) = true) :
    processCoins now dOk pOk (coin :: rest) st =
      ⟨(processCoins now dOk pOk rest
          (mark_token_as_sent st now (dexKey coin.address)
            (pOk (dexKey coin.address)))).state,
       dexKey coin.address :: (processCoins now dOk pOk rest
          (mark_token_as_sent st now (dexKey coin.address)
            (pOk (dexKey coin.address)))).attempts,
       dexKey coin.address :: (processCoins now dOk pOk rest
          (mark_token_as_sent st now (dexKey coin.address)
            (pOk (dexKey coin.address)))).delivered⟩ := by
  simp [processCoins, hrec, send_to_telegram, hdel]

theorem processCoins_cons_fail (now : Int) (dOk pOk : String → Bool)
    (coin : Coin) (rest : List Coin) (st : CacheState)
    (hrec : was_token_sent_recently st.mem now (dexKey coin.address) = false)
    (hdel : dOk (dexKey coin.address) = false) :
    processCoins now dOk pOk (coin :: rest) st =
      ⟨(processCoins now dOk pOk rest st).state,
       dexKey coin.address :: (processCoins now dOk pOk rest st).attempts,
       (processCoins now dOk pOk rest st).delivered⟩ := by
  simp [processCoins, hrec, send_to_telegram, hdel]

/-- A key carried by none of the remaining coins is untouched by the
loop. -/
theorem processCoins_lookup_of_fresh (now : Int) (dOk pOk : String → Bool)
    (coins : List Coin) (st : CacheState) (k : String)
    (hk : ∀ c ∈ coins, k ≠ dexKey c.address) :
    Store.lookup (processCoins now dOk pOk coins st).state.mem k =
      Store.lookup st.mem k := by
  induction coins generalizing st with
  | nil => rfl
  | cons coin rest ih =>
      have hkc : k ≠ dexKey coin.address := hk coin (List.mem_cons_self _ _)
      have hkr : ∀ c ∈ rest, k ≠ dexKey c.address :=
        fun c hc => hk c (List.mem_cons_of_mem _ hc)
      by_cases hrec : was_token_sent_recently st.mem now (dexKey coin.address)
      · rw [processCoins_cons_recent now dOk pOk coin rest st hrec]
        exact ih st hkr
      · rcases Bool.eq_false_or_eq_true (dOk (dexKey coin.address)) with hdel | hdel
        · rw [processCoins_cons_deliver now dOk pOk coin rest st
            (Bool.eq_false_iff.mpr hrec) hdel]
          rw [ih _ hkr, mark_mem_eq, lookup_insert_ne st.mem _ _ _ hkc]
        · rw [processCoins_cons_fail now dOk pOk coin rest st
            (Bool.eq_false_iff.mpr hrec) hdel]
          exact ih st hkr

/-- When every candidate key is already recent the loop changes nothing
and attempts nothing. -/
theorem processCoins_all_recent (now : Int) (dOk pOk : String → Bool)
    (coins : List Coin) (st : CacheState)
    (h : ∀ c ∈ coins,
      was_token_sent_recently st.mem now (dexKey c.address) = true) :
    processCoins now dOk pOk coins st = ⟨st, [], []⟩ := by
  induction coins with
  | nil => rfl
  | cons coin rest ih =>
      rw [processCoins_cons_recent now dOk pOk coin rest st
        (h coin (List.mem_cons_self _ _))]
      exact ih (fun c hc => h c (List.mem_cons_of_mem _ hc))

/-- With pairwise distinct candidate keys, the attempted keys are exactly
the keys not recent in the initial store, in candidate order. -/
theorem processCoins_attempts (now : Int) (dOk pOk : String → Bool)
    (coins : List Coin) (st : CacheState)
    (hnd : (coins.map (fun c => dexKey c.address)).Nodup) :
    (processCoins now dOk pOk coins st).attempts =
      (coins.filter
        (fun c => !was_token_sent_recently st.mem now (dexKey c.address))).map
        (fun c => dexKey c.address) := by
  induction coins generalizing st with
  | nil => rfl
  | cons coin rest ih =>
      simp only [List.map_cons, List.nodup_cons] at hnd
      by_cases hrec : was_token_sent_recently st.mem now (dexKey coin.address)
      · rw [processCoins_cons_recent now dOk pOk coin rest st hrec,
            List.filter_cons_of_neg (by simp [hrec])]
        exact ih st hnd.2
      · have hrec' := Bool.eq_false_iff.mpr hrec
        rcases Bool.eq_false_or_eq_true (dOk (dexKey coin.address)) with hdel | hdel
        · simp only [processCoins_cons_deliver now dOk pOk coin rest st hrec' hdel]
          rw [List.filter_cons_of_pos (by simp [hrec']), List.map_cons]
          congr 1
          rw [ih _ hnd.2]
          apply congrArg
          apply List.filter_congr
          intro c hc
          have hne : dexKey c.address ≠ dexKey coin.address := by
            intro he
            exact hnd.1 (List.mem_map.mpr ⟨c, hc, he⟩)
          rw [mark_mem_eq, was_recent_insert_ne st.mem now now _ _ hne]
        · simp only [processCoins_cons_fail now dOk pOk coin rest st hrec' hdel]
          rw [List.filter_cons_of_pos (by simp [hrec']), List.map_cons]
          congr 1
          exact ih st hnd.2

/-- With pairwise distinct candidate keys, a candidate's final store
entry is: unchanged if it was recent (skipped), the current time if its
delivery succeeded, and unchanged if its delivery failed. -/
theorem processCoins_lookup_coin (now : Int) (dOk pOk : String → Bool)
    (coins : List Coin) (st : CacheState)
    (hnd : (coins.map (fun c => dexKey c.address)).Nodup)
    (c : Coin) (hc : c ∈ coins) :
    Store.lookup (processCoins now dOk pOk coins st).state.mem
        (dexKey c.address) =
      if was_token_sent_recently st.mem now (dexKey c.address) then
        Store.lookup st.mem (dexKey c.address)
      else if dOk (dexKey c.address) then some now
      else Store.lookup st.mem (dexKey c.address) := by
  induction coins generalizing st with
  | nil => simp at hc
  | cons coin rest ih =>
      simp only [List.map_cons, List.nodup_cons] at hnd
      rcases List.mem_cons.mp hc with hceq | hcr
      · subst hceq
        have hfresh : ∀ c' ∈ rest, dexKey c.address ≠ dexKey c'.address := by
          intro c' hc' he
          exact hnd.1 (List.mem_map.mpr ⟨c', hc', he.symm⟩)
        by_cases hrec : was_token_sent_recently st.mem now (dexKey c.address)
        · rw [processCoins_cons_recent now dOk pOk c rest st hrec]
          rw [processCoins_lookup_of_fresh now dOk pOk rest st _ hfresh]
          simp [hrec]
        · have hrec' := Bool.eq_false_iff.mpr hrec
          rcases Bool.eq_false_or_eq_true (dOk (dexKey c.address)) with hdel | hdel
          · simp only [processCoins_cons_deliver now dOk pOk c rest st hrec' hdel]
            rw [processCoins_lookup_of_fresh now dOk pOk rest _ _ hfresh]
            rw [mark_mem_eq, lookup_insert_self]
            simp [hrec', hdel]
          · simp only [processCoins_cons_fail now dOk pOk c rest st hrec' hdel]
            rw [processCoins_lookup_of_fresh now dOk pOk rest st _ hfresh]
            simp [hrec', hdel]
      · have hne : dexKey c.address ≠ dexKey coin.address := by
          intro he
          exact hnd.1 (List.mem_map.mpr ⟨c, hcr, he⟩)
        by_cases hrec : was_token_sent_recently st.mem now (dexKey coin.address)
        · rw [processCoins_cons_recent now dOk pOk coin rest st hrec]
          exact ih st hnd.2 hcr
        · have hrec' := Bool.eq_false_iff.mpr hrec
          rcases Bool.eq_false_or_eq_true (dOk (dexKey coin.address)) with hdel | hdel
          · simp only [processCoins_cons_deliver now dOk pOk coin rest st hrec' hdel]
            rw [ih _ hnd.2 hcr, mark_mem_eq,
                was_recent_insert_ne st.mem now now _ _ hne,
                lookup_insert_ne st.mem _ _ _ hne]
          · simp only [processCoins_cons_fail now dOk pOk coin rest st hrec' hdel]
            exact ih st hnd.2 hcr

/-! ## Claim theorems -/

/-- C1: after mark_token_as_sent for key k at time T, the query
was_token_sent_recently answers true at every query time in
[T, T + 24h) and false at every query time at or past T + 24h, for any
prior store state and whether or not the persist succeeded.
was_token_sent_recently itself is a pure read: it consumes the store and
returns a Bool, mutating nothing (src/main.py lines 64-69 only read). -/
theorem spec_C1_expiry_invariant (st : CacheState) (k : String) (T q : Int)
    (pOk : Bool) :
    (T ≤ q → q < T + expiryHorizon →
      was_token_sent_recently (mark_token_as_sent st T k pOk).mem q k = true) ∧
    (T + expiryHorizon ≤ q →
      was_token_sent_recently (mark_token_as_sent st T k pOk).mem q k = false) := by
  have hm : Store.lookup (mark_token_as_sent st T k pOk).mem k = some T := by
    rw [mark_mem_eq]; exact lookup_insert_self st.mem k T
  rw [was_recent_of_lookup _ _ _ _ hm]
  constructor
  · intro h1 h2
    simp only [decide_eq_true_eq]
    omega
  · intro h1
    rw [decide_eq_false_iff_not]
    omega

/-- Witness for C1 at a concrete store: key marked at time 1000 is
recent at 1500 and no longer recent at 90000 = 1000 + 89000. -/
theorem spec_C1_expiry_invariant_witness :
    was_token_sent_recently
      (mark_token_as_sent ⟨[], DiskFile.missing⟩ 1000 "tok" true).mem
      1500 "tok" = true ∧
    was_token_sent_recently
      (mark_token_as_sent ⟨[], DiskFile.missing⟩ 1000 "tok" true).mem
      90000 "tok" = false :=
  ⟨(spec_C1_expiry_invariant ⟨[], DiskFile.missing⟩ "tok" 1000 1500 true).1
      (by decide) (by decide),
   (spec_C1_expiry_invariant ⟨[], DiskFile.missing⟩ "tok" 1000 90000 true).2
      (by decide)⟩

/-- C2: when the fetch fails (transport exception, non-200 status,
unparseable body, or a body without the expected keys), scrape leaves
the dedup store untouched: the in-memory mapping and the durable cache
file after the cycle equal the ones before. -/
theorem spec_C2_fetch_failure_non_mutation (st : CacheState) (now : Int)
    (fetch : FetchResult) (dOk pOk : String → Bool)
    (h : fetchFailed fetch = true) :
    (scrape st now fetch dOk pOk).state.mem = st.mem ∧
    (scrape st now fetch dOk pOk).state.disk = st.disk := by
  cases fetch with
  | transportError => exact ⟨rfl, rfl⟩
  | badStatus => exact ⟨rfl, rfl⟩
  | parseError => exact ⟨rfl, rfl⟩
  | badShape => exact ⟨rfl, rfl⟩
  | ok rank => simp [fetchFailed] at h

/-- Witness for C2: a transport failure over a concrete non-empty store
leaves both the mapping and the file unchanged. -/
theorem spec_C2_fetch_failure_non_mutation_witness :
    (scrape ⟨[("k", 5)], DiskFile.stored [("k", 5)]⟩ 100
        FetchResult.transportError (fun _ => true) (fun _ => true)).state.mem
      = [("k", 5)] ∧
    (scrape ⟨[("k", 5)], DiskFile.stored [("k", 5)]⟩ 100
        FetchResult.transportError (fun _ => true) (fun _ => true)).state.disk
      = DiskFile.stored [("k", 5)] :=
  spec_C2_fetch_failure_non_mutation ⟨[("k", 5)], DiskFile.stored [("k", 5)]⟩
    100 FetchResult.transportError (fun _ => true) (fun _ => true) rfl

/-- C6 (code bug): the claim says the resource-cleanup step runs before
every cycle ends, on every exit path.  The source defines
cleanup_temp_files (src/main.py lines 104-115) but scrape (lines
117-171) never invokes it and has no finally block, so on every outcome
of the cycle — success, fetch failure, delivery failure, or a re-raised
exception — no cleanup runs. -/
theorem spec_C6_cleanup_never_runs (st : CacheState) (now : Int)
    (fetch : FetchResult) (dOk pOk : String → Bool) :
    (scrape st now fetch dOk pOk).cleanupRan = false := by
  cases fetch <;> rfl

/-- C7 counterexample: a cycle that ends with a fatal fetch-level error
(a transport exception, re-raised by scrape) still makes the process
exit with code 0, because the top-level handler at src/main.py lines
178-179 catches every Exception and only logs it.  The claim requires a
non-zero exit code here. -/
theorem spec_C7_counterexample :
    fetchFailed FetchResult.transportError = true ∧
    (scrape ⟨[], DiskFile.missing⟩ 0 FetchResult.transportError
        (fun _ => true) (fun _ => true)).raisedError = true ∧
    gmgnMain ⟨[], DiskFile.missing⟩ 0 FetchResult.transportError
        (fun _ => true) (fun _ => true) = 0 :=
  ⟨rfl, rfl, rfl⟩

/-- C7 amended: the process exit code is 0 on every path — the __main__
handler swallows every exception, so fetch-level errors affect logs
only, never the exit code. -/
theorem spec_C7_exit_code_always_zero (st : CacheState) (now : Int)
    (fetch : FetchResult) (dOk pOk : String → Bool) :
    gmgnMain st now fetch dOk pOk = 0 := by
  simp [gmgnMain, ite_self]

/-- C10: mark_token_as_sent touches only its own key: the marked key
maps to the current time afterwards, and every other key keeps exactly
its previous binding — in particular no key is removed, since a key
bound before is still bound after. -/
theorem spec_C10_mark_sent_frame (st : CacheState) (now : Int) (pOk : Bool)
    (k k' : String) :
    Store.lookup (mark_token_as_sent st now k pOk).mem k' =
      if k' = k then some now else Store.lookup st.mem k' := by
  rw [mark_mem_eq]
  exact lookup_insert st.mem k k' now

/-- C4: load_cache yields an empty store for a missing file and for an
unreadable or unparseable file, raising no error (the function is
total); every entry surviving a successful load is strictly younger than
24 hours, and a key stored with a timestamp 24 hours old or older — for
instance 25 hours — is pruned, hence not reported recent right after
load.  The uniqueness hypothesis on keys holds for any store read back
from a JSON object, whose keys are unique. -/
theorem spec_C4_load_fallback_and_pruning (now : Int) :
    load_cache DiskFile.missing now = [] ∧
    load_cache DiskFile.corrupt now = [] ∧
    (∀ (s : Store) (k : String) (ts : Int),
      Store.lookup (load_cache (DiskFile.stored s) now) k = some ts →
      now - ts < expiryHorizon) ∧
    (∀ (s : Store) (k : String) (ts : Int),
      (s.map Prod.fst).Nodup →
      Store.lookup s k = some ts →
      expiryHorizon ≤ now - ts →
      was_token_sent_recently (load_cache (DiskFile.stored s) now) now k
        = false) := by
  refine ⟨rfl, rfl, ?_, ?_⟩
  · intro s k ts h
    have hmem := lookup_mem _ _ _ h
    simp only [load_cache] at hmem
    have hp := (List.mem_filter.mp hmem).2
    simpa using hp
  · intro s k ts hnd hlk hold
    cases hfk : Store.lookup (load_cache (DiskFile.stored s) now) k with
    | none => simp [was_token_sent_recently, hfk]
    | some v =>
        exfalso
        have hmem := lookup_mem _ _ _ hfk
        simp only [load_cache] at hmem
        obtain ⟨hin, hp⟩ := List.mem_filter.mp hmem
        have hvs := mem_lookup_of_nodup s k v hnd hin
        rw [hlk] at hvs
        injection hvs with hv
        subst hv
        simp only [decide_eq_true_eq] at hp
        omega

/-- Witness for C4: loading a file whose only entry is 25 hours old
(timestamp 0 at query time 90000) prunes it, and the key is not recent
after load; a 95-second-old entry survives and is indeed young. -/
theorem spec_C4_load_fallback_and_pruning_witness :
    ((100 : Int) - 5 < expiryHorizon) ∧
    was_token_sent_recently
      (load_cache (DiskFile.stored [("k", 0)]) 90000) 90000 "k" = false :=
  ⟨(spec_C4_load_fallback_and_pruning 100).2.2.1 [("k", 5)] "k" 5 (by decide),
   (spec_C4_load_fallback_and_pruning 90000).2.2.2 [("k", 0)] "k" 0
      (by decide) (by decide) (by decide)⟩

/-- C8: mark_token_as_sent binds its key to the current time (inserting
it when absent) and then persists the whole mapping; when the persist
succeeds the file holds exactly the new mapping, and when it fails no
error escapes (the model function is total, as save_cache catches every
exception) while the in-memory binding survives, so the key stays
recent for the rest of the run, up to the 24-hour horizon. -/
theorem spec_C8_mark_sent_persist (st : CacheState) (now : Int) (k : String)
    (persistOk : Bool) :
    Store.lookup (mark_token_as_sent st now k persistOk).mem k = some now ∧
    (persistOk = true →
      (mark_token_as_sent st now k persistOk).disk =
        DiskFile.stored (mark_token_as_sent st now k persistOk).mem) ∧
    (persistOk = false →
      (mark_token_as_sent st now k persistOk).disk = st.disk) ∧
    (∀ q : Int, now ≤ q → q - now < expiryHorizon →
      was_token_sent_recently (mark_token_as_sent st now k persistOk).mem q k
        = true) := by
  have hm : Store.lookup (mark_token_as_sent st now k persistOk).mem k
      = some now := by
    rw [mark_mem_eq]
    exact lookup_insert_self st.mem k now
  refine ⟨hm, ?_, ?_, ?_⟩
  · intro h
    simp [mark_token_as_sent, save_cache, h]
  · intro h
    simp [mark_token_as_sent, save_cache, h]
  · intro q h1 h2
    rw [was_recent_of_lookup _ _ _ _ hm, decide_eq_true_eq]
    omega

/-- Witness for C8 over a concrete store, in both persist outcomes: a
failed persist keeps the old file while the key is in memory and still
recent; a successful persist stores the updated mapping. -/
theorem spec_C8_mark_sent_persist_witness :
    Store.lookup (mark_token_as_sent ⟨[("a", 1)], DiskFile.stored [("a", 1)]⟩
        50 "b" false).mem "b" = some 50 ∧
    (mark_token_as_sent ⟨[("a", 1)], DiskFile.stored [("a", 1)]⟩
        50 "b" false).disk = DiskFile.stored [("a", 1)] ∧
    was_token_sent_recently (mark_token_as_sent
        ⟨[("a", 1)], DiskFile.stored [("a", 1)]⟩ 50 "b" false).mem 60 "b"
      = true ∧
    (mark_token_as_sent ⟨[("a", 1)], DiskFile.stored [("a", 1)]⟩
        50 "b" true).disk = DiskFile.stored [("a", 1), ("b", 50)] := by
  refine ⟨(spec_C8_mark_sent_persist ⟨[("a", 1)], DiskFile.stored [("a", 1)]⟩
      50 "b" false).1,
    (spec_C8_mark_sent_persist ⟨[("a", 1)], DiskFile.stored [("a", 1)]⟩
      50 "b" false).2.2.1 rfl,
    (spec_C8_mark_sent_persist ⟨[("a", 1)], DiskFile.stored [("a", 1)]⟩
      50 "b" false).2.2.2 60 (by decide) (by decide), ?_⟩
  rw [(spec_C8_mark_sent_persist ⟨[("a", 1)], DiskFile.stored [("a", 1)]⟩
      50 "b" true).2.1 rfl]
  rfl

/-- C9: a cycle whose every fetched candidate key is already recent in
the store attempts no delivery, delivers nothing, and leaves the cache
state unchanged. -/
theorem spec_C9_idempotent_notification (st : CacheState) (now : Int)
    (rank : List Coin) (dOk pOk : String → Bool)
    (h : ∀ c ∈ rank,
      was_token_sent_recently st.mem now (dexKey c.address) = true) :
    (scrape st now (FetchResult.ok rank) dOk pOk).attempts = [] ∧
    (scrape st now (FetchResult.ok rank) dOk pOk).delivered = [] ∧
    (scrape st now (FetchResult.ok rank) dOk pOk).state = st := by
  have hall : ∀ c ∈ rank.take 4,
      was_token_sent_recently st.mem now (dexKey c.address) = true :=
    fun c hc => h c (List.take_subset 4 rank hc)
  have hp := processCoins_all_recent now dOk pOk (rank.take 4) st hall
  refine ⟨?_, ?_, ?_⟩ <;> simp [scrape, hp]

/-- Witness for C9: one candidate whose key was marked 100 seconds ago;
the cycle at time 200 sends nothing and changes nothing. -/
theorem spec_C9_idempotent_notification_witness :
    (scrape ⟨[(dexKey "a", 100)], DiskFile.missing⟩ 200
        (FetchResult.ok [⟨"a", "S", 7⟩]) (fun _ => true)
        (fun _ => true)).attempts = [] ∧
    (scrape ⟨[(dexKey "a", 100)], DiskFile.missing⟩ 200
        (FetchResult.ok [⟨"a", "S", 7⟩]) (fun _ => true)
        (fun _ => true)).delivered = [] ∧
    (scrape ⟨[(dexKey "a", 100)], DiskFile.missing⟩ 200
        (FetchResult.ok [⟨"a", "S", 7⟩]) (fun _ => true)
        (fun _ => true)).state = ⟨[(dexKey "a", 100)], DiskFile.missing⟩ :=
  spec_C9_idempotent_notification ⟨[(dexKey "a", 100)], DiskFile.missing⟩ 200
    [⟨"a", "S", 7⟩] (fun _ => true) (fun _ => true) (by decide)

/-- C5: the cycle considers exactly the first 4 fetched records, in the
order the source returned them (all of them when fewer than 4), and
with pairwise distinct candidate keys the delivery attempts are exactly
the keys of the considered records not yet recent, in that same order —
no re-ranking. -/
theorem spec_C5_order_preservation (st : CacheState) (now : Int)
    (rank : List Coin) (dOk pOk : String → Bool)
    (hnd : ((rank.take 4).map (fun c => dexKey c.address)).Nodup) :
    (scrape st now (FetchResult.ok rank) dOk pOk).considered = rank.take 4 ∧
    (scrape st now (FetchResult.ok rank) dOk pOk).attempts =
      ((rank.take 4).filter
        (fun c => !was_token_sent_recently st.mem now (dexKey c.address))).map
        (fun c => dexKey c.address) := by
  refine ⟨rfl, ?_⟩
  have h := processCoins_attempts now dOk pOk (rank.take 4) st hnd
  simpa [scrape] using h

/-- Witness for C5: four unseen candidates are all considered and
attempted in source order on an empty store. -/
theorem spec_C5_order_preservation_witness :
    (scrape ⟨[], DiskFile.missing⟩ 0
        (FetchResult.ok [⟨"a", "A", 1⟩, ⟨"b", "B", 2⟩, ⟨"c", "C", 3⟩,
          ⟨"d", "D", 4⟩]) (fun _ => true) (fun _ => true)).considered =
      [⟨"a", "A", 1⟩, ⟨"b", "B", 2⟩, ⟨"c", "C", 3⟩, ⟨"d", "D", 4⟩] ∧
    (scrape ⟨[], DiskFile.missing⟩ 0
        (FetchResult.ok [⟨"a", "A", 1⟩, ⟨"b", "B", 2⟩, ⟨"c", "C", 3⟩,
          ⟨"d", "D", 4⟩]) (fun _ => true) (fun _ => true)).attempts =
      [dexKey "a", dexKey "b", dexKey "c", dexKey "d"] := by
  have h := spec_C5_order_preservation ⟨[], DiskFile.missing⟩ 0
    [⟨"a", "A", 1⟩, ⟨"b", "B", 2⟩, ⟨"c", "C", 3⟩, ⟨"d", "D", 4⟩]
    (fun _ => true) (fun _ => true) (by decide)
  exact ⟨h.1, by rw [h.2]; rfl⟩

/-- C3: with pairwise distinct candidate keys, every considered
candidate not yet recent gets a delivery attempt, whatever the delivery
outcomes of the other candidates are (the delivery oracle is
universally quantified); a candidate whose delivery fails keeps exactly
its previous store entry, so it is never marked sent; and a candidate
whose delivery succeeds is marked with the current time. -/
theorem spec_C3_partial_failure_isolation (st : CacheState) (now : Int)
    (rank : List Coin) (dOk pOk : String → Bool)
    (hnd : ((rank.take 4).map (fun c => dexKey c.address)).Nodup) :
    (∀ c ∈ rank.take 4,
      was_token_sent_recently st.mem now (dexKey c.address) = false →
      dexKey c.address ∈ (scrape st now (FetchResult.ok rank) dOk pOk).attempts) ∧
    (∀ c ∈ rank.take 4,
      dOk (dexKey c.address) = false →
      Store.lookup (scrape st now (FetchResult.ok rank) dOk pOk).state.mem
          (dexKey c.address) = Store.lookup st.mem (dexKey c.address)) ∧
    (∀ c ∈ rank.take 4,
      was_token_sent_recently st.mem now (dexKey c.address) = false →
      dOk (dexKey c.address) = true →
      Store.lookup (scrape st now (FetchResult.ok rank) dOk pOk).state.mem
          (dexKey c.address) = some now) := by
  have hs : (scrape st now (FetchResult.ok rank) dOk pOk).state =
      (processCoins now dOk pOk (rank.take 4) st).state := rfl
  have ha : (scrape st now (FetchResult.ok rank) dOk pOk).attempts =
      (processCoins now dOk pOk (rank.take 4) st).attempts := rfl
  refine ⟨?_, ?_, ?_⟩
  · intro c hc hrec
    rw [ha, processCoins_attempts now dOk pOk _ st hnd]
    exact List.mem_map.mpr ⟨c, List.mem_filter.mpr ⟨hc, by simp [hrec]⟩, rfl⟩
  · intro c hc hdel
    rw [hs, processCoins_lookup_coin now dOk pOk _ st hnd c hc]
    rcases Bool.eq_false_or_eq_true
      (was_token_sent_recently st.mem now (dexKey c.address)) with h1 | h1 <;>
      simp [h1, hdel]
  · intro c hc hrec hdel
    rw [hs, processCoins_lookup_coin now dOk pOk _ st hnd c hc]
    simp [hrec, hdel]

/-- Witness for C3: candidates a, b, c, d all unseen; delivery fails
exactly for the key of b.  All four are attempted, b is not marked, and
c is marked with the cycle time. -/
theorem spec_C3_partial_failure_isolation_witness :
    (dexKey "a" ∈ (scrape ⟨[], DiskFile.missing⟩ 0
        (FetchResult.ok [⟨"a", "A", 1⟩, ⟨"b", "B", 2⟩, ⟨"c", "C", 3⟩,
          ⟨"d", "D", 4⟩])
        (fun s => if s = dexKey "b" then false else true)
        (fun _ => true)).attempts) ∧
    (dexKey "b" ∈ (scrape ⟨[], DiskFile.missing⟩ 0
        (FetchResult.ok [⟨"a", "A", 1⟩, ⟨"b", "B", 2⟩, ⟨"c", "C", 3⟩,
          ⟨"d", "D", 4⟩])
        (fun s => if s = dexKey "b" then false else true)
        (fun _ => true)).attempts) ∧
    (dexKey "d" ∈ (scrape ⟨[], DiskFile.missing⟩ 0
        (FetchResult.ok [⟨"a", "A", 1⟩, ⟨"b", "B", 2⟩, ⟨"c", "C", 3⟩,
          ⟨"d", "D", 4⟩])
        (fun s => if s = dexKey "b" then false else true)
        (fun _ => true)).attempts) ∧
    Store.lookup (scrape ⟨[], DiskFile.missing⟩ 0
        (FetchResult.ok [⟨"a", "A", 1⟩, ⟨"b", "B", 2⟩, ⟨"c", "C", 3⟩,
          ⟨"d", "D", 4⟩])
        (fun s => if s = dexKey "b" then false else true)
        (fun _ => true)).state.mem (dexKey "b") = none ∧
    Store.lookup (scrape ⟨[], DiskFile.missing⟩ 0
        (FetchResult.ok [⟨"a", "A", 1⟩, ⟨"b", "B", 2⟩, ⟨"c", "C", 3⟩,
          ⟨"d", "D", 4⟩])
        (fun s => if s = dexKey "b" then false else true)
        (fun _ => true)).state.mem (dexKey "c") = some 0 := by
  have h := spec_C3_partial_failure_isolation ⟨[], DiskFile.missing⟩ 0
    [⟨"a", "A", 1⟩, ⟨"b", "B", 2⟩, ⟨"c", "C", 3⟩, ⟨"d", "D", 4⟩]
    (fun s => if s = dexKey "b" then false else true) (fun _ => true)
    (by decide)
  refine ⟨h.1 ⟨"a", "A", 1⟩ (by decide) (by decide),
    h.1 ⟨"b", "B", 2⟩ (by decide) (by decide),
    h.1 ⟨"d", "D", 4⟩ (by decide) (by decide),
    (h.2.1 ⟨"b", "B", 2⟩ (by decide) (by decide)).trans rfl,
    h.2.2 ⟨"c", "C", 3⟩ (by decide) (by decide) (by decide)⟩

end Gmgn
